import Mathlib

/-!
Verification of the tmux session/window reconciliation engine of
`malleatus/shared_binutils` (`src/global/src/tmux/mod.rs`), against the
repository specification.

The engine is shallowly embedded: Rust functions become Lean functions with
the same names; the mutable `TmuxState` (`BTreeMap<String, Vec<String>>`) is
threaded explicitly as an association list with BTreeMap lookup/insert
semantics; `anyhow::Result` failures and Rust panics become an explicit
`RunError` value; the `std::process::Command` values the engine builds are
embedded as a structured `TmuxCmd` whose `args` printer reproduces the exact
argument lists the Rust code assembles.  Side effects (subprocess execution)
are captured as the ordered trace of commands handed to `run_command`; with
`is_dry_run = false` every traced command is executed against the server.
-/

namespace Binutils

/-- Association-list model of Rust's `BTreeMap::get`: the value stored at a
key, if any.  (Key ordering of the `BTreeMap` is irrelevant to everything
proved here: the engine only ever looks keys up, replaces values in place,
and inserts fresh keys; it never iterates the map.) -/
def alistLookup {β : Type} : List (String × β) → String → Option β
  | [], _ => none
  | (k, v) :: rest, s => if k = s then some v else alistLookup rest s

/-- Model of mutating through `BTreeMap::get_mut`: replace the value stored
at an existing key, leaving the map unchanged when the key is absent. -/
def alistUpdate {β : Type} : List (String × β) → String → β → List (String × β)
  | [], _, _ => []
  | (k, v) :: rest, s, w => if k = s then (k, w) :: rest else (k, v) :: alistUpdate rest s w

/-- Model of `BTreeMap::insert`: replace the value at the key if present,
otherwise add the binding. -/
def alistInsert {β : Type} : List (String × β) → String → β → List (String × β)
  | [], s, w => [(s, w)]
  | (k, v) :: rest, s, w => if k = s then (k, w) :: rest else (k, v) :: alistInsert rest s w

/-- Model of `Vec::insert(index, value)`: defined exactly when
`index ≤ length` (Rust panics otherwise, which the caller surfaces as
`RunError.insertPanic`). -/
def vecInsert {α : Type} : List α → Nat → α → Option (List α)
  | xs, 0, a => some (a :: xs)
  | x :: xs, n + 1, a => (vecInsert xs n a).map (x :: ·)
  | [], _ + 1, _ => none

/-- Model of Rust's `str::lines`, by recursion over the character list: a
line ends at `'\n'` (a `'\r'` directly before the `'\n'` is stripped); input
left over at the end of the string is a final line kept verbatim, and a
trailing terminator produces no empty final line.  The second argument
accumulates the current line's characters in reverse. -/
def rustLinesAux : List Char → List Char → List String
  | [], [] => []
  | [], acc => [String.mk acc.reverse]
  | '\n' :: rest, acc =>
      String.mk (match acc with
        | '\r' :: acc' => acc'.reverse
        | _ => acc.reverse) :: rustLinesAux rest []
  | c :: rest, acc => rustLinesAux rest (c :: acc)

/-- Rust `str::lines` over a whole stdout capture. -/
def rustLines (s : String) : List String := rustLinesAux s.data []

/-- `config::Command`: a window's startup command, either one string or an
ordered list of strings (Rust `enum Command { Single(String), Multiple(Vec<String>) }`). -/
inductive ConfigCommand : Type
  | single (cmd : String)
  | multiple (cmds : List String)
deriving DecidableEq, Repr

/-- `config::Window`.  `path` is a `PathBuf` in Rust, modelled as a string;
`env` is a `BTreeMap<String, String>`, modelled as its (sorted) entry list,
which is how the engine consumes it (in-order iteration). -/
structure Window : Type where
  name : String
  path : Option String := none
  command : Option ConfigCommand := none
  env : Option (List (String × String)) := none
  linked_crates : Option (List String) := none
deriving DecidableEq, Repr

/-- `config::Session`: a named ordered list of windows. -/
structure Session : Type where
  name : String
  windows : List Window
deriving DecidableEq, Repr

/-- `config::Tmux`: the sessions plus the optional default session to attach to. -/
structure Tmux : Type where
  sessions : List Session
  default_session : Option String := none
deriving DecidableEq, Repr

/-- `config::Config`, restricted to the field the engine consumes
(`config.tmux`); the engine receives the crate map already resolved from
`crate_locations` by the external Crate Location Resolver
(`gather_crate_locations`), so that map is a separate parameter below. -/
structure Config : Type where
  tmux : Option Tmux := none
deriving DecidableEq, Repr

/-- The resolved crate map (`BTreeMap<String, PathBuf>`), crate name to
build-output directory, as an association list. -/
abbrev CrateMap := List (String × String)

/-- The multiplexer state: session name to ordered window-name list
(`type TmuxState = BTreeMap<String, Vec<String>>`). -/
abbrev TmuxState := List (String × List String)

/-- The window list the local state tracks for a session (empty when the
session is absent). -/
def windowsOf (st : TmuxState) (s : String) : List String :=
  (alistLookup st s).getD []

/-- The `TmuxOptions` trait, modelled as a record of what its methods
return.  `config_file` is never consulted by the engine and is omitted. -/
structure TmuxOptions : Type where
  is_dry_run : Bool
  is_debug : Bool
  socket_name : Option String
  should_attach : Option Bool
  is_testing : Bool
deriving DecidableEq, Repr

/-- `get_socket_name`: the socket name override, defaulting to `"default"`. -/
def get_socket_name (options : TmuxOptions) : String :=
  options.socket_name.getD "default"

/-- `in_tmux`: whether the `TMUX` environment variable is set; the ambient
environment is passed in explicitly as `tmux_env`. -/
def in_tmux (tmux_env : Option String) : Bool :=
  tmux_env.isSome

/-- A `std::process::Command` the engine builds (program is always `tmux`),
kept structured; `TmuxCmd.args` prints the exact argument list the Rust code
assembles. -/
inductive TmuxCmd : Type
  | newSession (socket session window : String) (path : Option String)
      (env : List (String × String))
  | newWindow (socket session : String) (target_index : Nat) (window : String)
      (path : Option String) (env : List (String × String))
  | sendKeys (socket session window text : String)
  | listSessions (socket : String)
  | listWindows (socket session : String)
  | attach (target : Option String)
deriving DecidableEq, Repr

/-- The `-c`/`-e` suffix shared by the two creation commands. -/
def pathEnvArgs (path : Option String) (env : List (String × String)) : List String :=
  (match path with
   | some p => ["-c", p]
   | none => []) ++
  env.flatMap (fun kv => ["-e", kv.1 ++ "=" ++ kv.2])

/-- The argument list of each command, exactly as the Rust code pushes the
arguments (`Command::new("tmux")` followed by these `.arg(..)` calls). -/
def TmuxCmd.args : TmuxCmd → List String
  | .newSession socket session window path env =>
      ["-L", socket, "new-session", "-d", "-s", session, "-n", window] ++
        pathEnvArgs path env
  | .newWindow socket session target_index window path env =>
      ["-L", socket, "new-window", "-t", session ++ ":" ++ toString target_index,
        "-n", window, "-b"] ++ pathEnvArgs path env
  | .sendKeys socket session window text =>
      ["-L", socket, "send-keys", "-t", session ++ ":" ++ window, text, "Enter"]
  | .listSessions socket =>
      ["-L", socket, "list-sessions", "-F", "#{session_name}"]
  | .listWindows socket session =>
      ["-L", socket, "list-windows", "-F", "#{window_name}", "-t", session]
  | .attach target =>
      ["attach"] ++ (match target with
        | some session => ["-t", session]
        | none => [])

/-- Whether a command is one of the two creation commands (`new-session` /
`new-window`). -/
def TmuxCmd.isCreation : TmuxCmd → Bool
  | .newSession _ _ _ _ _ => true
  | .newWindow _ _ _ _ _ _ => true
  | _ => false

/-- How a run can fail.  `missingCrate` models the `anyhow::bail!` in
`determine_commands_for_window`; `insertPanic` models the Rust panic raised
by `Vec::insert` in `ensure_window` when the insertion index exceeds the
vector length (a panic, not an `Err` return). -/
inductive RunError : Type
  | missingCrate (crateName window : String)
  | insertPanic (window : String) (index length : Nat)
deriving DecidableEq, Repr

/-- The `export PATH=..` line emitted for one resolved linked crate
(`format!(r#"export PATH="{}:$PATH""#, path)`). -/
def exportPathCmd (cratePath : String) : String :=
  "export PATH=\"" ++ cratePath ++ ":$PATH\""

/-- The `linked_crates` loop of `determine_commands_for_window`: one
`export PATH` command per entry in order, failing at the first entry absent
from the crate map. -/
def linked_crate_commands (window_name : String) :
    List String → CrateMap → Except RunError (List String)
  | [], _ => .ok []
  | c :: rest, crates =>
      match alistLookup crates c with
      | some p =>
          match linked_crate_commands window_name rest crates with
          | .ok cmds => .ok (exportPathCmd p :: cmds)
          | .error e => .error e
      | none => .error (.missingCrate c window_name)

/-- `determine_commands_for_window`: linked-crate `PATH` exports first, then
the window's own command(s); `none` when nothing was collected. -/
def determine_commands_for_window (window : Window) (crates : CrateMap) :
    Except RunError (Option (List String)) :=
  match linked_crate_commands window.name (window.linked_crates.getD []) crates with
  | .error e => .error e
  | .ok lc =>
      let commands := lc ++ (match window.command with
        | none => []
        | some (.single cmd) => [cmd]
        | some (.multiple cmds) => cmds)
      if commands.isEmpty then .ok none else .ok (some commands)

/-- `execute_command`: plan the window's commands and send each one with
`send-keys -t session:window .. Enter`; the trace is what `run_command`
received, empty when planning failed or produced nothing. -/
def execute_command (session_name : String) (window : Window) (crates : CrateMap)
    (options : TmuxOptions) : List TmuxCmd × Except RunError Unit :=
  match determine_commands_for_window window crates with
  | .error e => ([], .error e)
  | .ok none => ([], .ok ())
  | .ok (some commands) =>
      (commands.map
        (fun c => TmuxCmd.sendKeys (get_socket_name options) session_name window.name c),
       .ok ())

/-- Outcome of `compare_presumed_vs_actual_state`. -/
inductive CompareOutcome : Type
  | panicked
  | loggedMismatch
  | matched
  | skipped
deriving DecidableEq, Repr

/-- `compare_presumed_vs_actual_state`: only consulted when testing or TRACE
logging is enabled; on a mismatch it panics under testing and merely logs
otherwise.  The freshly gathered state is passed in as `actual_state`. -/
def compare_presumed_vs_actual_state (current_state actual_state : TmuxState)
    (options : TmuxOptions) (trace_enabled : Bool) : CompareOutcome :=
  if options.is_testing || trace_enabled then
    if current_state = actual_state then .matched
    else if options.is_testing then .panicked else .loggedMismatch
  else .skipped

/-- `ensure_window`: the per-window reconciliation step.  Returns the trace
of commands handed to `run_command`, in order, together with the updated
local state or the failure.  The two `compare_presumed_vs_actual_state`
calls at entry and exit neither touch the state nor (by
`ensure_window_tracks` below) can observe a mismatch in a single-client
run; they are modelled separately by `compare_presumed_vs_actual_state`. -/
def ensure_window (session_name : String) (window : Window) (window_index : Nat)
    (crates : CrateMap) (current_state : TmuxState) (options : TmuxOptions) :
    List TmuxCmd × Except RunError TmuxState :=
  match alistLookup current_state session_name with
  | some windows =>
      if window.name ∈ windows then
        ([], .ok current_state)
      else
        let cmd := TmuxCmd.newWindow (get_socket_name options) session_name
          (1 + window_index) window.name window.path (window.env.getD [])
        match execute_command session_name window crates options with
        | (sends, .error e) => (cmd :: sends, .error e)
        | (sends, .ok _) =>
            match vecInsert windows window_index window.name with
            | none =>
                (cmd :: sends, .error (.insertPanic window.name window_index windows.length))
            | some windows' =>
                (cmd :: sends, .ok (alistUpdate current_state session_name windows'))
  | none =>
      let cmd := TmuxCmd.newSession (get_socket_name options) session_name
        window.name window.path (window.env.getD [])
      match execute_command session_name window crates options with
      | (sends, .error e) => (cmd :: sends, .error e)
      | (sends, .ok _) =>
          (cmd :: sends, .ok (alistInsert current_state session_name [window.name]))

/-- The window loop of `startup_tmux` for one session
(`for (index, window) in session.windows.iter().enumerate()`), threading the
local state and concatenating traces; the first failure aborts. -/
def ensure_windows (session_name : String) (crates : CrateMap) (options : TmuxOptions) :
    List Window → Nat → TmuxState → List TmuxCmd × Except RunError TmuxState
  | [], _, st => ([], .ok st)
  | w :: rest, idx, st =>
      match ensure_window session_name w idx crates st options with
      | (tr, .error e) => (tr, .error e)
      | (tr, .ok st') =>
          let (tr', r) := ensure_windows session_name crates options rest (idx + 1) st'
          (tr ++ tr', r)

/-- The session loop of `startup_tmux`. -/
def ensure_sessions (crates : CrateMap) (options : TmuxOptions) :
    List Session → TmuxState → List TmuxCmd × Except RunError TmuxState
  | [], st => ([], .ok st)
  | sess :: rest, st =>
      match ensure_windows sess.name crates options sess.windows 0 st with
      | (tr, .error e) => (tr, .error e)
      | (tr, .ok st') =>
          let (tr', r) := ensure_sessions crates options rest st'
          (tr ++ tr', r)

/-- Result of `maybe_attach_tmux`: do not attach at all, replace the current
process with the attach command (`cmd.exec()`; a return from `exec` is a
fatal error), or — under dry-run or testing — hand the would-be command
back (`Ok(Some(cmd))`). -/
inductive AttachResult : Type
  | noAttach
  | execReplace (cmd : TmuxCmd)
  | wouldRun (cmd : TmuxCmd)
deriving DecidableEq, Repr

/-- `maybe_attach_tmux`: attach according to the explicit preference,
defaulting to "attach iff not already inside tmux"; the command is
`tmux attach` with `-t default_session` appended when configured. -/
def maybe_attach_tmux (tmux_env : Option String) (config : Config)
    (options : TmuxOptions) : AttachResult :=
  let shouldAttach := options.should_attach.getD (!(in_tmux tmux_env))
  if !shouldAttach then .noAttach
  else
    let cmd := TmuxCmd.attach (config.tmux.bind (fun t => t.default_session))
    if !options.is_dry_run && !options.is_testing then .execReplace cmd
    else .wouldRun cmd

/-- `startup_tmux`, with the IO boundary made explicit: `initial_state` is
what `gather_tmux_state` returned and `crates` what
`gather_crate_locations` resolved.  Returns the trace of mutating commands
handed to `run_command` plus, on success, the final local state and the
attach decision. -/
def startup_tmux (crates : CrateMap) (config : Config) (options : TmuxOptions)
    (initial_state : TmuxState) (tmux_env : Option String) :
    List TmuxCmd × Except RunError (TmuxState × AttachResult) :=
  match config.tmux with
  | none => ([], .ok (initial_state, .noAttach))
  | some tmux =>
      match ensure_sessions crates options tmux.sessions initial_state with
      | (tr, .error e) => (tr, .error e)
      | (tr, .ok st) =>
          (tr, .ok (st, maybe_attach_tmux tmux_env config options))

/-- How the two fallible steps of one external list command can go:
`output()` returning `Err` (the `.expect` panic) is `none`; non-UTF-8 stdout
(the `String::from_utf8(..).unwrap()` panic) is `some none`; captured stdout
is `some (some s)`.  The exit status is not part of the model because
`gather_tmux_state` never reads it: a server that is not running produces
empty stdout (tmux reports the failure on stderr only). -/
structure TmuxResponses : Type where
  sessions_output : Option (Option String)
  windows_output : String → Option (Option String)

/-- The two panics `gather_tmux_state` can raise, both fatal for the run. -/
inductive GatherError : Type
  | execFailure
  | invalidUtf8
deriving DecidableEq, Repr

/-- The per-session loop of `gather_tmux_state`. -/
def gather_windows (socket : String) (responses : TmuxResponses) :
    List String → TmuxState → List TmuxCmd × Except GatherError TmuxState
  | [], st => ([], .ok st)
  | session :: rest, st =>
      let cmd := TmuxCmd.listWindows socket session
      match responses.windows_output session with
      | none => ([cmd], .error .execFailure)
      | some none => ([cmd], .error .invalidUtf8)
      | some (some out) =>
          let (tr, r) :=
            gather_windows socket responses rest (alistInsert st session (rustLines out))
          (cmd :: tr, r)

/-- `gather_tmux_state`: list the sessions, then the windows of each session,
assembling the state mapping; either panic (modelled as `GatherError`) is
fatal. -/
def gather_tmux_state (responses : TmuxResponses) (options : TmuxOptions) :
    List TmuxCmd × Except GatherError TmuxState :=
  let socket := get_socket_name options
  let cmd := TmuxCmd.listSessions socket
  match responses.sessions_output with
  | none => ([cmd], .error .execFailure)
  | some none => ([cmd], .error .invalidUtf8)
  | some (some out) =>
      let (tr, r) := gather_windows socket responses (rustLines out) []
      (cmd :: tr, r)

/-- Modelled from the spec: the external multiplexer's reaction to one
engine command, per the external-interface contract (spec §6) — tmux itself
is not code of this repository.  `new-session` creates the session with its
one window; `new-window -t session:index .. -b` inserts the window before
the 1-based `index`; `send-keys`, the list queries and `attach` leave the
topology unchanged.  `none` when the command is not meaningful in the given
state. -/
def applyTmuxCmd (st : TmuxState) : TmuxCmd → Option TmuxState
  | .newSession _ session window _ _ => some (alistInsert st session [window])
  | .newWindow _ session target_index window _ _ =>
      match alistLookup st session with
      | some ws => (vecInsert ws (target_index - 1) window).map (alistUpdate st session)
      | none => none
  | _ => some st

/-- Modelled from the spec: the server state after executing a trace of
engine commands in order. -/
def applyTmuxTrace : TmuxState → List TmuxCmd → Option TmuxState
  | st, [] => some st
  | st, c :: rest =>
      match applyTmuxCmd st c with
      | some st' => applyTmuxTrace st' rest
      | none => none

/-- All of a window's linked crates resolve in the crate map. -/
def cratesOk (crates : CrateMap) (window : Window) : Prop :=
  ∀ c ∈ window.linked_crates.getD [], (alistLookup crates c).isSome

/-- The window's own startup commands, as the planner flattens them. -/
def ownCommands (window : Window) : List String :=
  match window.command with
  | none => []
  | some (.single cmd) => [cmd]
  | some (.multiple cmds) => cmds

/-- Every command in a trace is a `send-keys` to the given window. -/
def allSendKeys (socket session window : String) (cmds : List TmuxCmd) : Prop :=
  ∀ c ∈ cmds, ∃ text, c = TmuxCmd.sendKeys socket session window text

/-- Every configured window of every configured session is present in the
tracked state. -/
def allPresent (sessions : List Session) (st : TmuxState) : Prop :=
  ∀ sess ∈ sessions, ∀ w ∈ sess.windows, w.name ∈ windowsOf st sess.name

/-- The command's argument list begins with the socket flag. -/
def socketFlagged (socket : String) (c : TmuxCmd) : Prop :=
  c.args.take 2 = ["-L", socket]

/-- A window with only a name, as in the snapshot tests. -/
def mkWin (name : String) : Window :=
  { name := name }

/-- Concrete options for the closed instances: a real (non-dry, non-testing)
run with the default socket that was told not to attach. -/
def optsPlain : TmuxOptions :=
  { is_dry_run := false, is_debug := false, socket_name := none,
    should_attach := some false, is_testing := false }

/-- The same options with the testing flag raised. -/
def optsTesting : TmuxOptions :=
  { is_dry_run := false, is_debug := false, socket_name := none,
    should_attach := some false, is_testing := true }

/-- Dry-run options told to attach, for exercising the would-be attach
command. -/
def optsAttachDry : TmuxOptions :=
  { is_dry_run := true, is_debug := false, socket_name := none,
    should_attach := some true, is_testing := false }

/-- A configuration with one session `s` holding one window `w`. -/
def cfgSingle : Config :=
  { tmux := some { sessions := [⟨"s", [mkWin "w"]⟩], default_session := none } }

/-- A configuration whose session `foo` declares the duplicate window list
`[a, a, b]`. -/
def cfgDup : Config :=
  { tmux := some { sessions := [⟨"foo", [mkWin "a", mkWin "a", mkWin "b"]⟩],
                   default_session := none } }

/-- Responses of a server with no sessions: every list command succeeds with
empty stdout. -/
def respEmpty : TmuxResponses :=
  { sessions_output := some (some ""), windows_output := fun _ => some (some "") }

/-- A window linking one crate and declaring one single-string command. -/
def winLinked : Window :=
  { name := "t", command := some (.single "echo hi"), linked_crates := some ["c1"] }

/-- A one-entry crate map resolving `c1`. -/
def cratesOne : CrateMap := [("c1", "/p")]

/-! Basic lemmas about the state helpers. -/

theorem alistLookup_update_self {β : Type} (st : List (String × β)) (s : String)
    (v₀ w : β) (h : alistLookup st s = some v₀) :
    alistLookup (alistUpdate st s w) s = some w := by
  induction st with
  | nil => simp [alistLookup] at h
  | cons kv rest ih =>
      obtain ⟨k, v⟩ := kv
      by_cases hk : k = s
      · simp [alistLookup, alistUpdate, hk]
      · simp only [alistLookup, alistUpdate, if_neg hk] at h ⊢
        exact ih h

theorem alistLookup_update_ne {β : Type} (st : List (String × β)) (s s' : String)
    (w : β) (h : s' ≠ s) :
    alistLookup (alistUpdate st s w) s' = alistLookup st s' := by
  induction st with
  | nil => rfl
  | cons kv rest ih =>
      obtain ⟨k, v⟩ := kv
      simp only [alistUpdate, alistLookup]
      by_cases hk : k = s
      · subst hk
        have hks : ¬(k = s') := fun hc => h (hc.symm)
        simp only [if_pos rfl, alistLookup, if_neg hks]
      · simp only [if_neg hk, alistLookup]
        by_cases hk' : k = s' <;> simp [hk', ih]

theorem alistLookup_insert_self {β : Type} (st : List (String × β)) (s : String) (w : β) :
    alistLookup (alistInsert st s w) s = some w := by
  induction st with
  | nil => simp [alistLookup, alistInsert]
  | cons kv rest ih =>
      obtain ⟨k, v⟩ := kv
      by_cases hk : k = s <;> simp [alistLookup, alistInsert, hk, ih]

theorem alistLookup_insert_ne {β : Type} (st : List (String × β)) (s s' : String)
    (w : β) (h : s' ≠ s) :
    alistLookup (alistInsert st s w) s' = alistLookup st s' := by
  have hss : ¬(s = s') := fun hc => h (hc.symm)
  induction st with
  | nil => simp [alistLookup, alistInsert, hss]
  | cons kv rest ih =>
      obtain ⟨k, v⟩ := kv
      simp only [alistInsert, alistLookup]
      by_cases hk : k = s
      · subst hk
        simp only [if_pos rfl, alistLookup, if_neg hss]
      · simp only [if_neg hk, alistLookup]
        by_cases hk' : k = s' <;> simp [hk', ih]

theorem vecInsert_of_le {α : Type} (xs : List α) (n : Nat) (a : α)
    (h : n ≤ xs.length) : ∃ ys, vecInsert xs n a = some ys := by
  induction xs generalizing n with
  | nil =>
      have hn : n = 0 := by simpa using h
      subst hn
      exact ⟨[a], rfl⟩
  | cons x rest ih =>
      cases n with
      | zero => exact ⟨a :: x :: rest, rfl⟩
      | succ m =>
          obtain ⟨ys, hys⟩ := ih m (by simpa using Nat.le_of_succ_le_succ h)
          exact ⟨x :: ys, by simp [vecInsert, hys]⟩

theorem vecInsert_mem {α : Type} (xs ys : List α) (n : Nat) (a b : α)
    (h : vecInsert xs n a = some ys) (hb : b ∈ xs) : b ∈ ys := by
  induction xs generalizing n ys with
  | nil => simp at hb
  | cons x rest ih =>
      cases n with
      | zero =>
          simp only [vecInsert] at h
          cases h
          simp at hb ⊢
          tauto
      | succ m =>
          simp only [vecInsert, Option.map_eq_some'] at h
          obtain ⟨zs, hzs, rfl⟩ := h
          rcases List.mem_cons.mp hb with rfl | hb'
          · simp
          · simp [ih zs m hzs hb']

theorem vecInsert_mem_self {α : Type} (xs ys : List α) (n : Nat) (a : α)
    (h : vecInsert xs n a = some ys) : a ∈ ys := by
  induction xs generalizing n ys with
  | nil =>
      cases n with
      | zero => simp only [vecInsert] at h; cases h; simp
      | succ m => simp [vecInsert] at h
  | cons x rest ih =>
      cases n with
      | zero => simp only [vecInsert] at h; cases h; simp
      | succ m =>
          simp only [vecInsert, Option.map_eq_some'] at h
          obtain ⟨zs, hzs, rfl⟩ := h
          simp [ih zs m hzs]

/-! Lemmas about the command planner and `execute_command`. -/

theorem linked_crate_commands_ok (window_name : String) (cs : List String)
    (crates : CrateMap) (h : ∀ c ∈ cs, (alistLookup crates c).isSome) :
    linked_crate_commands window_name cs crates =
      .ok (cs.map (fun c => exportPathCmd ((alistLookup crates c).getD ""))) := by
  induction cs with
  | nil => rfl
  | cons c rest ih =>
      obtain ⟨p, hp⟩ := Option.isSome_iff_exists.mp (h c (by simp))
      have hrest := ih (fun x hx => h x (by simp [hx]))
      simp [linked_crate_commands, hp, hrest]

theorem linked_crate_commands_missing (window_name : String) (cs : List String)
    (crates : CrateMap) (h : ∃ c ∈ cs, alistLookup crates c = none) :
    ∃ c, c ∈ cs ∧ alistLookup crates c = none ∧
      linked_crate_commands window_name cs crates = .error (.missingCrate c window_name) := by
  induction cs with
  | nil => simp at h
  | cons c rest ih =>
      cases hc : alistLookup crates c with
      | none => exact ⟨c, by simp, hc, by simp [linked_crate_commands, hc]⟩
      | some p =>
          obtain ⟨c', hc', hnone⟩ := h
          rcases List.mem_cons.mp hc' with rfl | hmem
          · rw [hc] at hnone; cases hnone
          · obtain ⟨c₀, hm₀, hn₀, heq₀⟩ := ih ⟨c', hmem, hnone⟩
            exact ⟨c₀, by simp [hm₀], hn₀, by simp [linked_crate_commands, hc, heq₀]⟩

theorem determine_commands_eq (window : Window) (crates : CrateMap)
    (h : cratesOk crates window) :
    determine_commands_for_window window crates =
      .ok (if ((window.linked_crates.getD []).map
              (fun c => exportPathCmd ((alistLookup crates c).getD "")) ++
                ownCommands window).isEmpty
           then none
           else some ((window.linked_crates.getD []).map
              (fun c => exportPathCmd ((alistLookup crates c).getD "")) ++
                ownCommands window)) := by
  simp only [determine_commands_for_window,
    linked_crate_commands_ok window.name _ crates h, ownCommands]
  split <;> rfl

theorem execute_command_sends (session_name : String) (window : Window)
    (crates : CrateMap) (options : TmuxOptions) (sends : List TmuxCmd)
    (r : Except RunError Unit)
    (h : execute_command session_name window crates options = (sends, r)) :
    allSendKeys (get_socket_name options) session_name window.name sends := by
  unfold execute_command at h
  intro c hc
  cases hd : determine_commands_for_window window crates with
  | error e => rw [hd] at h; cases h; simp at hc
  | ok o =>
      cases o with
      | none => rw [hd] at h; cases h; simp at hc
      | some cmds =>
          rw [hd] at h
          cases h
          obtain ⟨text, _, rfl⟩ := List.mem_map.mp hc
          exact ⟨text, rfl⟩

theorem execute_command_ok (session_name : String) (window : Window)
    (crates : CrateMap) (options : TmuxOptions) (h : cratesOk crates window) :
    ∃ sends, execute_command session_name window crates options = (sends, .ok ()) ∧
      allSendKeys (get_socket_name options) session_name window.name sends := by
  have hd := determine_commands_eq window crates h
  by_cases he : ((window.linked_crates.getD []).map
      (fun c => exportPathCmd ((alistLookup crates c).getD "")) ++
        ownCommands window).isEmpty
  · refine ⟨[], ?_, ?_⟩
    · unfold execute_command
      rw [hd]
      simp [he]
    · intro c hc
      simp at hc
  · refine ⟨((window.linked_crates.getD []).map
        (fun c => exportPathCmd ((alistLookup crates c).getD "")) ++
          ownCommands window).map
        (fun c => TmuxCmd.sendKeys (get_socket_name options) session_name window.name c),
      ?_, ?_⟩
    · unfold execute_command
      rw [hd]
      simp [he]
    · intro c hc
      obtain ⟨text, _, rfl⟩ := List.mem_map.mp hc
      exact ⟨text, rfl⟩

theorem execute_command_missing (session_name : String) (window : Window)
    (crates : CrateMap) (options : TmuxOptions)
    (h : ∃ c ∈ window.linked_crates.getD [], alistLookup crates c = none) :
    ∃ c, c ∈ window.linked_crates.getD [] ∧ alistLookup crates c = none ∧
      execute_command session_name window crates options =
        ([], .error (.missingCrate c window.name)) := by
  obtain ⟨c, hm, hn, heq⟩ :=
    linked_crate_commands_missing window.name (window.linked_crates.getD []) crates h
  exact ⟨c, hm, hn, by simp [execute_command, determine_commands_for_window, heq]⟩

/-! Case lemmas for `ensure_window`. -/

theorem ensure_window_skip (session_name : String) (w : Window) (idx : Nat)
    (crates : CrateMap) (st : TmuxState) (options : TmuxOptions)
    (h : w.name ∈ windowsOf st session_name) :
    ensure_window session_name w idx crates st options = ([], .ok st) := by
  unfold windowsOf at h
  cases hl : alistLookup st session_name with
  | none => rw [hl] at h; simp at h
  | some ws =>
      rw [hl] at h
      simp only [Option.getD_some] at h
      unfold ensure_window
      rw [hl]
      simp [h]

theorem ensure_window_creates_window (session_name : String) (w : Window) (idx : Nat)
    (crates : CrateMap) (st : TmuxState) (options : TmuxOptions) (ws : List String)
    (hl : alistLookup st session_name = some ws)
    (hnm : w.name ∉ ws) (hle : idx ≤ ws.length) (hc : cratesOk crates w) :
    ∃ sends ws',
      vecInsert ws idx w.name = some ws' ∧
      allSendKeys (get_socket_name options) session_name w.name sends ∧
      ensure_window session_name w idx crates st options =
        (TmuxCmd.newWindow (get_socket_name options) session_name (1 + idx) w.name
            w.path (w.env.getD []) :: sends,
         .ok (alistUpdate st session_name ws')) := by
  obtain ⟨sends, hexec, hsk⟩ := execute_command_ok session_name w crates options hc
  obtain ⟨ws', hins⟩ := vecInsert_of_le ws idx w.name hle
  refine ⟨sends, ws', hins, hsk, ?_⟩
  unfold ensure_window
  rw [hl]
  dsimp only
  rw [if_neg hnm, hexec]
  dsimp only
  rw [hins]

theorem ensure_window_creates_session (session_name : String) (w : Window) (idx : Nat)
    (crates : CrateMap) (st : TmuxState) (options : TmuxOptions)
    (hl : alistLookup st session_name = none) (hc : cratesOk crates w) :
    ∃ sends,
      allSendKeys (get_socket_name options) session_name w.name sends ∧
      ensure_window session_name w idx crates st options =
        (TmuxCmd.newSession (get_socket_name options) session_name w.name
            w.path (w.env.getD []) :: sends,
         .ok (alistInsert st session_name [w.name])) := by
  obtain ⟨sends, hexec, hsk⟩ := execute_command_ok session_name w crates options hc
  refine ⟨sends, hsk, ?_⟩
  unfold ensure_window
  rw [hl]
  dsimp only
  rw [hexec]

theorem ensure_window_missing_crate (session_name : String) (w : Window) (idx : Nat)
    (crates : CrateMap) (st : TmuxState) (options : TmuxOptions)
    (hmiss : ∃ c ∈ w.linked_crates.getD [], alistLookup crates c = none)
    (hneed : w.name ∉ windowsOf st session_name) :
    ∃ c cmd, c ∈ w.linked_crates.getD [] ∧ alistLookup crates c = none ∧
      cmd.isCreation = true ∧
      ensure_window session_name w idx crates st options =
        ([cmd], .error (.missingCrate c w.name)) := by
  obtain ⟨c, hm, hn, hexec⟩ := execute_command_missing session_name w crates options hmiss
  cases hl : alistLookup st session_name with
  | none =>
      refine ⟨c, TmuxCmd.newSession (get_socket_name options) session_name w.name
        w.path (w.env.getD []), hm, hn, rfl, ?_⟩
      unfold ensure_window
      rw [hl]
      dsimp only
      rw [hexec]
  | some ws =>
      have hnm : w.name ∉ ws := by
        unfold windowsOf at hneed
        rw [hl] at hneed
        simpa using hneed
      refine ⟨c, TmuxCmd.newWindow (get_socket_name options) session_name (1 + idx)
        w.name w.path (w.env.getD []), hm, hn, rfl, ?_⟩
      unfold ensure_window
      rw [hl]
      dsimp only
      rw [if_neg hnm, hexec]

theorem ensure_window_mem_preserved (session_name : String) (w : Window) (idx : Nat)
    (crates : CrateMap) (st : TmuxState) (options : TmuxOptions)
    (tr : List TmuxCmd) (st' : TmuxState)
    (h : ensure_window session_name w idx crates st options = (tr, .ok st')) :
    ∀ s₀ n, n ∈ windowsOf st s₀ → n ∈ windowsOf st' s₀ := by
  intro s₀ n hn
  unfold ensure_window at h
  cases hl : alistLookup st session_name with
  | some ws =>
      rw [hl] at h
      dsimp only at h
      by_cases hm : w.name ∈ ws
      · rw [if_pos hm] at h
        simp only [Prod.mk.injEq, Except.ok.injEq] at h
        obtain ⟨-, rfl⟩ := h
        exact hn
      · rw [if_neg hm] at h
        rcases hE : execute_command session_name w crates options with ⟨sends, r⟩
        rw [hE] at h
        cases r with
        | error e => simp at h
        | ok u =>
            dsimp only at h
            cases hv : vecInsert ws idx w.name with
            | none => rw [hv] at h; simp at h
            | some ws' =>
                rw [hv] at h
                simp only [Prod.mk.injEq, Except.ok.injEq] at h
                obtain ⟨-, rfl⟩ := h
                unfold windowsOf at hn ⊢
                by_cases hs : s₀ = session_name
                · subst hs
                  rw [alistLookup_update_self st s₀ ws ws' hl]
                  rw [hl] at hn
                  simp only [Option.getD_some] at hn ⊢
                  exact vecInsert_mem ws ws' idx w.name n hv hn
                · rw [alistLookup_update_ne st session_name s₀ ws' hs]
                  exact hn
  | none =>
      rw [hl] at h
      dsimp only at h
      rcases hE : execute_command session_name w crates options with ⟨sends, r⟩
      rw [hE] at h
      cases r with
      | error e => simp at h
      | ok u =>
          simp only [Prod.mk.injEq, Except.ok.injEq] at h
          obtain ⟨-, rfl⟩ := h
          unfold windowsOf at hn ⊢
          by_cases hs : s₀ = session_name
          · subst hs
            rw [hl] at hn
            simp at hn
          · rw [alistLookup_insert_ne st session_name s₀ [w.name] hs]
            exact hn

theorem ensure_window_present (session_name : String) (w : Window) (idx : Nat)
    (crates : CrateMap) (st : TmuxState) (options : TmuxOptions)
    (tr : List TmuxCmd) (st' : TmuxState)
    (h : ensure_window session_name w idx crates st options = (tr, .ok st')) :
    w.name ∈ windowsOf st' session_name := by
  unfold ensure_window at h
  cases hl : alistLookup st session_name with
  | some ws =>
      rw [hl] at h
      dsimp only at h
      by_cases hm : w.name ∈ ws
      · rw [if_pos hm] at h
        simp only [Prod.mk.injEq, Except.ok.injEq] at h
        obtain ⟨-, rfl⟩ := h
        unfold windowsOf
        rw [hl]
        simpa using hm
      · rw [if_neg hm] at h
        rcases hE : execute_command session_name w crates options with ⟨sends, r⟩
        rw [hE] at h
        cases r with
        | error e => simp at h
        | ok u =>
            dsimp only at h
            cases hv : vecInsert ws idx w.name with
            | none => rw [hv] at h; simp at h
            | some ws' =>
                rw [hv] at h
                simp only [Prod.mk.injEq, Except.ok.injEq] at h
                obtain ⟨-, rfl⟩ := h
                unfold windowsOf
                rw [alistLookup_update_self st session_name ws ws' hl]
                simpa using vecInsert_mem_self ws ws' idx w.name hv
  | none =>
      rw [hl] at h
      dsimp only at h
      rcases hE : execute_command session_name w crates options with ⟨sends, r⟩
      rw [hE] at h
      cases r with
      | error e => simp at h
      | ok u =>
          simp only [Prod.mk.injEq, Except.ok.injEq] at h
          obtain ⟨-, rfl⟩ := h
          unfold windowsOf
          rw [alistLookup_insert_self st session_name [w.name]]
          simp

/-! Lemmas about the window/session loops. -/

theorem ensure_windows_mem_preserved (session_name : String) (crates : CrateMap)
    (options : TmuxOptions) (ws : List Window) (idx : Nat) (st : TmuxState)
    (tr : List TmuxCmd) (st' : TmuxState)
    (h : ensure_windows session_name crates options ws idx st = (tr, .ok st')) :
    ∀ s₀ n, n ∈ windowsOf st s₀ → n ∈ windowsOf st' s₀ := by
  induction ws generalizing idx st tr with
  | nil =>
      simp only [ensure_windows, Prod.mk.injEq, Except.ok.injEq] at h
      obtain ⟨-, rfl⟩ := h
      exact fun _ _ hn => hn
  | cons w rest ih =>
      simp only [ensure_windows] at h
      rcases hw : ensure_window session_name w idx crates st options with ⟨tr₁, r₁⟩
      rw [hw] at h
      cases r₁ with
      | error e => simp at h
      | ok st₁ =>
          dsimp only at h
          rcases hrest : ensure_windows session_name crates options rest (idx + 1) st₁
            with ⟨tr₂, r₂⟩
          rw [hrest] at h
          dsimp only at h
          simp only [Prod.mk.injEq] at h
          obtain ⟨-, rfl⟩ := h
          intro s₀ n hn
          exact ih (idx + 1) st₁ tr₂ hrest s₀ n
            (ensure_window_mem_preserved session_name w idx crates st options tr₁ st₁ hw s₀ n hn)

theorem ensure_windows_all_present (session_name : String) (crates : CrateMap)
    (options : TmuxOptions) (ws : List Window) (idx : Nat) (st : TmuxState)
    (tr : List TmuxCmd) (st' : TmuxState)
    (h : ensure_windows session_name crates options ws idx st = (tr, .ok st')) :
    ∀ w ∈ ws, w.name ∈ windowsOf st' session_name := by
  induction ws generalizing idx st tr with
  | nil => intro w hw; simp at hw
  | cons w rest ih =>
      simp only [ensure_windows] at h
      rcases hw : ensure_window session_name w idx crates st options with ⟨tr₁, r₁⟩
      rw [hw] at h
      cases r₁ with
      | error e => simp at h
      | ok st₁ =>
          dsimp only at h
          rcases hrest : ensure_windows session_name crates options rest (idx + 1) st₁
            with ⟨tr₂, r₂⟩
          rw [hrest] at h
          dsimp only at h
          simp only [Prod.mk.injEq] at h
          obtain ⟨-, rfl⟩ := h
          intro w₀ hw₀
          rcases List.mem_cons.mp hw₀ with rfl | hmem
          · exact ensure_windows_mem_preserved session_name crates options rest (idx + 1)
              st₁ tr₂ st' hrest session_name w₀.name
              (ensure_window_present session_name w₀ idx crates st options tr₁ st₁ hw)
          · exact ih (idx + 1) st₁ tr₂ hrest w₀ hmem

theorem ensure_sessions_mem_preserved (crates : CrateMap) (options : TmuxOptions)
    (sessions : List Session) (st : TmuxState) (tr : List TmuxCmd) (st' : TmuxState)
    (h : ensure_sessions crates options sessions st = (tr, .ok st')) :
    ∀ s₀ n, n ∈ windowsOf st s₀ → n ∈ windowsOf st' s₀ := by
  induction sessions generalizing st tr with
  | nil =>
      simp only [ensure_sessions, Prod.mk.injEq, Except.ok.injEq] at h
      obtain ⟨-, rfl⟩ := h
      exact fun _ _ hn => hn
  | cons sess rest ih =>
      simp only [ensure_sessions] at h
      rcases hw : ensure_windows sess.name crates options sess.windows 0 st with ⟨tr₁, r₁⟩
      rw [hw] at h
      cases r₁ with
      | error e => simp at h
      | ok st₁ =>
          dsimp only at h
          rcases hrest : ensure_sessions crates options rest st₁ with ⟨tr₂, r₂⟩
          rw [hrest] at h
          dsimp only at h
          simp only [Prod.mk.injEq] at h
          obtain ⟨-, rfl⟩ := h
          intro s₀ n hn
          exact ih st₁ tr₂ hrest s₀ n
            (ensure_windows_mem_preserved sess.name crates options sess.windows 0 st tr₁ st₁
              hw s₀ n hn)

theorem ensure_sessions_all_present (crates : CrateMap) (options : TmuxOptions)
    (sessions : List Session) (st : TmuxState) (tr : List TmuxCmd) (st' : TmuxState)
    (h : ensure_sessions crates options sessions st = (tr, .ok st')) :
    allPresent sessions st' := by
  induction sessions generalizing st tr with
  | nil => intro sess hs; simp at hs
  | cons sess rest ih =>
      simp only [ensure_sessions] at h
      rcases hw : ensure_windows sess.name crates options sess.windows 0 st with ⟨tr₁, r₁⟩
      rw [hw] at h
      cases r₁ with
      | error e => simp at h
      | ok st₁ =>
          dsimp only at h
          rcases hrest : ensure_sessions crates options rest st₁ with ⟨tr₂, r₂⟩
          rw [hrest] at h
          dsimp only at h
          simp only [Prod.mk.injEq] at h
          obtain ⟨-, rfl⟩ := h
          intro sess₀ hs₀
          rcases List.mem_cons.mp hs₀ with rfl | hmem
          · intro w₀ hw₀
            exact ensure_sessions_mem_preserved crates options rest st₁ tr₂ st' hrest
              sess₀.name w₀.name
              (ensure_windows_all_present sess₀.name crates options sess₀.windows 0 st tr₁
                st₁ hw w₀ hw₀)
          · exact ih st₁ tr₂ hrest sess₀ hmem

theorem ensure_windows_skip_all (session_name : String) (crates : CrateMap)
    (options : TmuxOptions) (ws : List Window) (idx : Nat) (st : TmuxState)
    (h : ∀ w ∈ ws, w.name ∈ windowsOf st session_name) :
    ensure_windows session_name crates options ws idx st = ([], .ok st) := by
  induction ws generalizing idx with
  | nil => rfl
  | cons w rest ih =>
      have h1 := ensure_window_skip session_name w idx crates st options (h w (by simp))
      have h2 := ih (idx + 1) (fun w' hw' => h w' (by simp [hw']))
      simp only [ensure_windows, h1, h2, List.nil_append]

theorem ensure_sessions_skip_all (crates : CrateMap) (options : TmuxOptions)
    (sessions : List Session) (st : TmuxState)
    (h : allPresent sessions st) :
    ensure_sessions crates options sessions st = ([], .ok st) := by
  induction sessions with
  | nil => rfl
  | cons sess rest ih =>
      have h1 := ensure_windows_skip_all sess.name crates options sess.windows 0 st
        (fun w hw => h sess (by simp) w hw)
      have h2 := ih (fun sess' hs' => h sess' (by simp [hs']))
      simp only [ensure_sessions, h1, h2, List.nil_append]

/-! Tracking lemmas: the spec-modelled server state follows the trace. -/

theorem applyTmuxTrace_append (st st₁ : TmuxState) (tr tr' : List TmuxCmd)
    (h : applyTmuxTrace st tr = some st₁) :
    applyTmuxTrace st (tr ++ tr') = applyTmuxTrace st₁ tr' := by
  induction tr generalizing st with
  | nil =>
      simp only [applyTmuxTrace, Option.some.injEq] at h
      subst h
      rfl
  | cons c rest ih =>
      simp only [applyTmuxTrace] at h ⊢
      cases hc : applyTmuxCmd st c with
      | none => rw [hc] at h; simp at h
      | some st₂ =>
          rw [hc] at h
          dsimp only at h
          simp only [List.cons_append, hc]
          exact ih st₂ h

theorem applyTmuxTrace_sendKeys (st : TmuxState) (sends : List TmuxCmd)
    (socket session window : String)
    (h : allSendKeys socket session window sends) :
    applyTmuxTrace st sends = some st := by
  induction sends with
  | nil => rfl
  | cons c rest ih =>
      obtain ⟨text, rfl⟩ := h c (by simp)
      simp only [applyTmuxTrace, applyTmuxCmd]
      exact ih (fun c' hc' => h c' (by simp [hc']))

theorem ensure_window_tracks (session_name : String) (w : Window) (idx : Nat)
    (crates : CrateMap) (st : TmuxState) (options : TmuxOptions)
    (tr : List TmuxCmd) (st' : TmuxState)
    (h : ensure_window session_name w idx crates st options = (tr, .ok st')) :
    applyTmuxTrace st tr = some st' := by
  unfold ensure_window at h
  cases hl : alistLookup st session_name with
  | some ws =>
      rw [hl] at h
      dsimp only at h
      by_cases hm : w.name ∈ ws
      · rw [if_pos hm] at h
        simp only [Prod.mk.injEq, Except.ok.injEq] at h
        obtain ⟨rfl, rfl⟩ := h
        rfl
      · rw [if_neg hm] at h
        rcases hE : execute_command session_name w crates options with ⟨sends, r⟩
        have hsk := execute_command_sends session_name w crates options sends r hE
        rw [hE] at h
        cases r with
        | error e => simp at h
        | ok u =>
            dsimp only at h
            cases hv : vecInsert ws idx w.name with
            | none => rw [hv] at h; simp at h
            | some ws' =>
                rw [hv] at h
                simp only [Prod.mk.injEq, Except.ok.injEq] at h
                obtain ⟨rfl, rfl⟩ := h
                simp only [applyTmuxTrace, applyTmuxCmd, hl]
                rw [Nat.add_sub_cancel_left 1 idx, hv]
                dsimp only [Option.map_some']
                exact applyTmuxTrace_sendKeys _ sends _ _ _ hsk
  | none =>
      rw [hl] at h
      dsimp only at h
      rcases hE : execute_command session_name w crates options with ⟨sends, r⟩
      have hsk := execute_command_sends session_name w crates options sends r hE
      rw [hE] at h
      cases r with
      | error e => simp at h
      | ok u =>
          simp only [Prod.mk.injEq, Except.ok.injEq] at h
          obtain ⟨rfl, rfl⟩ := h
          simp only [applyTmuxTrace, applyTmuxCmd]
          exact applyTmuxTrace_sendKeys _ sends _ _ _ hsk

theorem ensure_windows_tracks (session_name : String) (crates : CrateMap)
    (options : TmuxOptions) (ws : List Window) (idx : Nat) (st : TmuxState)
    (tr : List TmuxCmd) (st' : TmuxState)
    (h : ensure_windows session_name crates options ws idx st = (tr, .ok st')) :
    applyTmuxTrace st tr = some st' := by
  induction ws generalizing idx st tr with
  | nil =>
      simp only [ensure_windows, Prod.mk.injEq, Except.ok.injEq] at h
      obtain ⟨rfl, rfl⟩ := h
      rfl
  | cons w rest ih =>
      simp only [ensure_windows] at h
      rcases hw : ensure_window session_name w idx crates st options with ⟨tr₁, r₁⟩
      rw [hw] at h
      cases r₁ with
      | error e => simp at h
      | ok st₁ =>
          dsimp only at h
          rcases hrest : ensure_windows session_name crates options rest (idx + 1) st₁
            with ⟨tr₂, r₂⟩
          rw [hrest] at h
          dsimp only at h
          simp only [Prod.mk.injEq] at h
          obtain ⟨rfl, rfl⟩ := h
          rw [applyTmuxTrace_append st st₁ tr₁ tr₂
            (ensure_window_tracks session_name w idx crates st options tr₁ st₁ hw)]
          exact ih (idx + 1) st₁ tr₂ hrest

theorem ensure_sessions_tracks (crates : CrateMap) (options : TmuxOptions)
    (sessions : List Session) (st : TmuxState) (tr : List TmuxCmd) (st' : TmuxState)
    (h : ensure_sessions crates options sessions st = (tr, .ok st')) :
    applyTmuxTrace st tr = some st' := by
  induction sessions generalizing st tr with
  | nil =>
      simp only [ensure_sessions, Prod.mk.injEq, Except.ok.injEq] at h
      obtain ⟨rfl, rfl⟩ := h
      rfl
  | cons sess rest ih =>
      simp only [ensure_sessions] at h
      rcases hw : ensure_windows sess.name crates options sess.windows 0 st with ⟨tr₁, r₁⟩
      rw [hw] at h
      cases r₁ with
      | error e => simp at h
      | ok st₁ =>
          dsimp only at h
          rcases hrest : ensure_sessions crates options rest st₁ with ⟨tr₂, r₂⟩
          rw [hrest] at h
          dsimp only at h
          simp only [Prod.mk.injEq] at h
          obtain ⟨rfl, rfl⟩ := h
          rw [applyTmuxTrace_append st st₁ tr₁ tr₂
            (ensure_windows_tracks sess.name crates options sess.windows 0 st tr₁ st₁ hw)]
          exact ih st₁ tr₂ hrest

/-! Socket-flag lemmas: every mutating or listing command carries
`-L <socket>` as its first two arguments. -/

theorem ensure_window_socket (session_name : String) (w : Window) (idx : Nat)
    (crates : CrateMap) (st : TmuxState) (options : TmuxOptions) :
    ∀ c ∈ (ensure_window session_name w idx crates st options).1,
      socketFlagged (get_socket_name options) c := by
  intro c hc
  unfold ensure_window at hc
  cases hl : alistLookup st session_name with
  | some ws =>
      rw [hl] at hc
      dsimp only at hc
      by_cases hm : w.name ∈ ws
      · rw [if_pos hm] at hc
        simp at hc
      · rw [if_neg hm] at hc
        rcases hE : execute_command session_name w crates options with ⟨sends, r⟩
        have hsk := execute_command_sends session_name w crates options sends r hE
        rw [hE] at hc
        have hmem : c = TmuxCmd.newWindow (get_socket_name options) session_name (1 + idx)
            w.name w.path (w.env.getD []) ∨ c ∈ sends := by
          cases r with
          | error e => simpa using hc
          | ok u =>
              dsimp only at hc
              cases hv : vecInsert ws idx w.name with
              | none => rw [hv] at hc; simpa using hc
              | some ws' => rw [hv] at hc; simpa using hc
        rcases hmem with rfl | hmem
        · rfl
        · obtain ⟨text, rfl⟩ := hsk c hmem
          rfl
  | none =>
      rw [hl] at hc
      dsimp only at hc
      rcases hE : execute_command session_name w crates options with ⟨sends, r⟩
      have hsk := execute_command_sends session_name w crates options sends r hE
      rw [hE] at hc
      have hmem : c = TmuxCmd.newSession (get_socket_name options) session_name
          w.name w.path (w.env.getD []) ∨ c ∈ sends := by
        cases r with
        | error e => simpa using hc
        | ok u => simpa using hc
      rcases hmem with rfl | hmem
      · rfl
      · obtain ⟨text, rfl⟩ := hsk c hmem
        rfl

theorem ensure_windows_socket (session_name : String) (crates : CrateMap)
    (options : TmuxOptions) (ws : List Window) (idx : Nat) (st : TmuxState) :
    ∀ c ∈ (ensure_windows session_name crates options ws idx st).1,
      socketFlagged (get_socket_name options) c := by
  induction ws generalizing idx st with
  | nil => intro c hc; simp [ensure_windows] at hc
  | cons w rest ih =>
      intro c hc
      simp only [ensure_windows] at hc
      rcases hw : ensure_window session_name w idx crates st options with ⟨tr₁, r₁⟩
      rw [hw] at hc
      cases r₁ with
      | error e =>
          dsimp only at hc
          have := ensure_window_socket session_name w idx crates st options c
          rw [hw] at this
          exact this hc
      | ok st₁ =>
          dsimp only at hc
          rcases hrest : ensure_windows session_name crates options rest (idx + 1) st₁
            with ⟨tr₂, r₂⟩
          rw [hrest] at hc
          dsimp only at hc
          rcases List.mem_append.mp hc with hmem | hmem
          · have := ensure_window_socket session_name w idx crates st options c
            rw [hw] at this
            exact this hmem
          · have := ih (idx + 1) st₁ c
            rw [hrest] at this
            exact this hmem

theorem ensure_sessions_socket (crates : CrateMap) (options : TmuxOptions)
    (sessions : List Session) (st : TmuxState) :
    ∀ c ∈ (ensure_sessions crates options sessions st).1,
      socketFlagged (get_socket_name options) c := by
  induction sessions generalizing st with
  | nil => intro c hc; simp [ensure_sessions] at hc
  | cons sess rest ih =>
      intro c hc
      simp only [ensure_sessions] at hc
      rcases hw : ensure_windows sess.name crates options sess.windows 0 st with ⟨tr₁, r₁⟩
      rw [hw] at hc
      cases r₁ with
      | error e =>
          dsimp only at hc
          have := ensure_windows_socket sess.name crates options sess.windows 0 st c
          rw [hw] at this
          exact this hc
      | ok st₁ =>
          dsimp only at hc
          rcases hrest : ensure_sessions crates options rest st₁ with ⟨tr₂, r₂⟩
          rw [hrest] at hc
          dsimp only at hc
          rcases List.mem_append.mp hc with hmem | hmem
          · have := ensure_windows_socket sess.name crates options sess.windows 0 st c
            rw [hw] at this
            exact this hmem
          · have := ih st₁ c
            rw [hrest] at this
            exact this hmem

theorem startup_tmux_socket (crates : CrateMap) (config : Config)
    (options : TmuxOptions) (st : TmuxState) (tmux_env : Option String) :
    ∀ c ∈ (startup_tmux crates config options st tmux_env).1,
      socketFlagged (get_socket_name options) c := by
  intro c hc
  unfold startup_tmux at hc
  cases ht : config.tmux with
  | none => rw [ht] at hc; simp at hc
  | some tmux =>
      rw [ht] at hc
      dsimp only at hc
      rcases hs : ensure_sessions crates options tmux.sessions st with ⟨tr, r⟩
      rw [hs] at hc
      have := ensure_sessions_socket crates options tmux.sessions st c
      rw [hs] at this
      cases r with
      | error e => exact this (by simpa using hc)
      | ok st' => exact this (by simpa using hc)

theorem gather_windows_socket (socket : String) (responses : TmuxResponses)
    (sessions : List String) (st : TmuxState) :
    ∀ c ∈ (gather_windows socket responses sessions st).1, socketFlagged socket c := by
  induction sessions generalizing st with
  | nil => intro c hc; simp [gather_windows] at hc
  | cons s rest ih =>
      intro c hc
      simp only [gather_windows] at hc
      cases hr : responses.windows_output s with
      | none =>
          rw [hr] at hc
          simp only [List.mem_singleton] at hc
          subst hc
          rfl
      | some o =>
          cases o with
          | none =>
              rw [hr] at hc
              simp only [List.mem_singleton] at hc
              subst hc
              rfl
          | some out =>
              rw [hr] at hc
              dsimp only at hc
              rcases hg : gather_windows socket responses rest
                  (alistInsert st s (rustLines out)) with ⟨tr, r⟩
              rw [hg] at hc
              dsimp only at hc
              rcases List.mem_cons.mp hc with rfl | hmem
              · rfl
              · have := ih (alistInsert st s (rustLines out)) c
                rw [hg] at this
                exact this hmem

theorem gather_tmux_state_socket (responses : TmuxResponses) (options : TmuxOptions) :
    ∀ c ∈ (gather_tmux_state responses options).1,
      socketFlagged (get_socket_name options) c := by
  intro c hc
  unfold gather_tmux_state at hc
  cases hr : responses.sessions_output with
  | none =>
      rw [hr] at hc
      simp only [List.mem_singleton] at hc
      subst hc
      rfl
  | some o =>
      cases o with
      | none =>
          rw [hr] at hc
          simp only [List.mem_singleton] at hc
          subst hc
          rfl
      | some out =>
          rw [hr] at hc
          dsimp only at hc
          rcases hg : gather_windows (get_socket_name options) responses (rustLines out) []
            with ⟨tr, r⟩
          rw [hg] at hc
          dsimp only at hc
          rcases List.mem_cons.mp hc with rfl | hmem
          · rfl
          · have := gather_windows_socket (get_socket_name options) responses
              (rustLines out) [] c
            rw [hg] at this
            exact this hmem

/-! Assembly lemmas used by the claim theorems. -/

theorem ensure_windows_cons_ok (session_name : String) (crates : CrateMap)
    (options : TmuxOptions) (w : Window) (rest : List Window) (idx : Nat)
    (st st₁ : TmuxState) (tr₁ tr₂ : List TmuxCmd) (r₂ : Except RunError TmuxState)
    (h₁ : ensure_window session_name w idx crates st options = (tr₁, .ok st₁))
    (h₂ : ensure_windows session_name crates options rest (idx + 1) st₁ = (tr₂, r₂)) :
    ensure_windows session_name crates options (w :: rest) idx st = (tr₁ ++ tr₂, r₂) := by
  simp only [ensure_windows, h₁, h₂]

theorem ensure_sessions_cons_ok (crates : CrateMap) (options : TmuxOptions)
    (sess : Session) (rest : List Session) (st st₁ : TmuxState)
    (tr₁ tr₂ : List TmuxCmd) (r₂ : Except RunError TmuxState)
    (h₁ : ensure_windows sess.name crates options sess.windows 0 st = (tr₁, .ok st₁))
    (h₂ : ensure_sessions crates options rest st₁ = (tr₂, r₂)) :
    ensure_sessions crates options (sess :: rest) st = (tr₁ ++ tr₂, r₂) := by
  simp only [ensure_sessions, h₁, h₂]

theorem filter_isCreation_sendKeys (sends : List TmuxCmd)
    (socket session window : String)
    (h : allSendKeys socket session window sends) :
    sends.filter (fun c => c.isCreation) = [] := by
  induction sends with
  | nil => rfl
  | cons c rest ih =>
      obtain ⟨text, rfl⟩ := h c (by simp)
      simp only [List.filter_cons, TmuxCmd.isCreation]
      rw [if_neg (by simp)]
      exact ih (fun c' hc' => h c' (by simp [hc']))

theorem gather_windows_err (socket : String) (responses : TmuxResponses)
    (sessions : List String) (st : TmuxState)
    (h : ∃ s ∈ sessions, responses.windows_output s = none ∨
      responses.windows_output s = some none) :
    ∃ e, (gather_windows socket responses sessions st).2 = .error e := by
  induction sessions generalizing st with
  | nil => simp at h
  | cons s rest ih =>
      cases hr : responses.windows_output s with
      | none => exact ⟨.execFailure, by simp [gather_windows, hr]⟩
      | some o =>
          cases o with
          | none => exact ⟨.invalidUtf8, by simp [gather_windows, hr]⟩
          | some out =>
              obtain ⟨s', hs', hfail⟩ := h
              rcases List.mem_cons.mp hs' with rfl | hmem
              · rcases hfail with hf | hf <;> rw [hr] at hf <;> cases hf
              · obtain ⟨e, he⟩ := ih (alistInsert st s (rustLines out)) ⟨s', hmem, hfail⟩
                refine ⟨e, ?_⟩
                simp only [gather_windows, hr]
                rcases hg : gather_windows socket responses rest
                    (alistInsert st s (rustLines out)) with ⟨tr, r⟩
                rw [hg] at he
                simpa using he

theorem maybe_attach_cases (tmux_env : Option String) (config : Config)
    (options : TmuxOptions) :
    maybe_attach_tmux tmux_env config options = .noAttach ∨
    maybe_attach_tmux tmux_env config options =
      .execReplace (TmuxCmd.attach (config.tmux.bind (fun t => t.default_session))) ∨
    maybe_attach_tmux tmux_env config options =
      .wouldRun (TmuxCmd.attach (config.tmux.bind (fun t => t.default_session))) := by
  unfold maybe_attach_tmux
  dsimp only
  split
  · left; rfl
  · split
    · right; left; rfl
    · right; right; rfl

/-! Claim theorems. -/

/-- C9: a valid configuration can make `startup_tmux` panic rather than
return an error.  Reconciling session `foo` with windows `[a, a, b]` against
an empty multiplexer state creates the session (with window `a`), silently
skips the duplicate `a`, then for `b` issues `new-window -t foo:3` but calls
the local `Vec::insert` with index 2 on a tracked list of length 1 —
violating the index-at-most-length precondition, which is the Rust panic
modelled by `RunError.insertPanic` (an `anyhow` error would be
`RunError.missingCrate`-style `Except.error` with a different constructor
family, and the real code would return it rather than abort). -/
theorem startup_duplicate_window_panics :
    startup_tmux [] cfgDup optsPlain [] none =
      ([TmuxCmd.newSession "default" "foo" "a" none [],
        TmuxCmd.newWindow "default" "foo" 3 "b" none []],
       .error (.insertPanic "b" 2 1)) := rfl

/-- C1 counterexample: the claim's hypotheses hold — session `foo` is in the
gathered state with window list `["a"]`, and configured window `b` (position
2 in `[a, a, b]`) is absent from that list — and the single `new-window`
command targeting `foo:3` is issued, but the window is *not* recorded in the
local tracked list: the run aborts with the `Vec::insert` panic
(index 2 > length 1), so the claim's conclusion fails as stated. -/
theorem missing_window_record_fails_on_index_gap :
    startup_tmux [] cfgDup optsPlain [("foo", ["a"])] none =
      ([TmuxCmd.newWindow "default" "foo" 3 "b" none []],
       .error (.insertPanic "b" 2 1)) := rfl

/-- C1 (amended): for a session present in the state and a configured window
absent from its window list, *provided* the window's configuration position
does not exceed the tracked list's current length and its linked crates all
resolve, `ensure_window` issues exactly one `new-window` command targeting
`session:(1 + position)` (followed only by `send-keys` commands), flagged
`-b` (visible in `TmuxCmd.args`), and records the window at its
configuration-relative position in the local tracked list; in particular,
reconciling existing windows `[A, C]` against configuration `[A, B, C]`
issues exactly `new-window -t foo:2 -n B -b` and yields local order
`[A, B, C]`. -/
theorem missing_window_inserted_at_config_index :
    (∀ (session_name : String) (w : Window) (idx : Nat) (crates : CrateMap)
        (st : TmuxState) (options : TmuxOptions) (ws : List String),
      alistLookup st session_name = some ws →
      w.name ∉ ws →
      idx ≤ ws.length →
      cratesOk crates w →
      ∃ sends ws',
        vecInsert ws idx w.name = some ws' ∧
        allSendKeys (get_socket_name options) session_name w.name sends ∧
        ensure_window session_name w idx crates st options =
          (TmuxCmd.newWindow (get_socket_name options) session_name (1 + idx) w.name
              w.path (w.env.getD []) :: sends,
           .ok (alistUpdate st session_name ws'))) ∧
    ensure_sessions [] optsPlain [⟨"foo", [mkWin "A", mkWin "B", mkWin "C"]⟩]
        [("foo", ["A", "C"])] =
      ([TmuxCmd.newWindow "default" "foo" 2 "B" none []],
       .ok [("foo", ["A", "B", "C"])]) := by
  constructor
  · intro session_name w idx crates st options ws hl hnm hle hc
    exact ensure_window_creates_window session_name w idx crates st options ws hl hnm hle hc
  · rfl

/-- C1 witness: the general insertion statement instantiated at session `s`
with tracked windows `["x"]` and a fresh window `w` at position 0. -/
theorem missing_window_inserted_at_config_index_witness :
    ∃ sends ws',
      vecInsert ["x"] 0 (mkWin "w").name = some ws' ∧
      allSendKeys (get_socket_name optsPlain) "s" (mkWin "w").name sends ∧
      ensure_window "s" (mkWin "w") 0 [] [("s", ["x"])] optsPlain =
        (TmuxCmd.newWindow (get_socket_name optsPlain) "s" (1 + 0) (mkWin "w").name
            (mkWin "w").path ((mkWin "w").env.getD []) :: sends,
         .ok (alistUpdate [("s", ["x"])] "s" ws')) :=
  missing_window_inserted_at_config_index.1 "s" (mkWin "w") 0 [] [("s", ["x"])]
    optsPlain ["x"] rfl (by decide) (by decide) (by intro c hc; simp [mkWin] at hc)

/-- C3 counterexample: window `win` links the unresolvable crate `missing`
with an empty crate map; the run does fail with an error naming both
`missing` and `win`, but only *after* the window's creation command
(`new-window -t foo:1 -n win`) has already been handed to `run_command` —
with `is_dry_run = false` that command is executed against the multiplexer —
so the failure is not surfaced before any multiplexer mutation for that
window. -/
theorem missing_crate_error_after_creation_command :
    ensure_window "foo" { name := "win", linked_crates := some ["missing"] } 0 []
        [("foo", [])] optsPlain =
      ([TmuxCmd.newWindow "default" "foo" 1 "win" none []],
       .error (.missingCrate "missing" "win")) := rfl

/-- C3 (amended): for every window that actually needs creation (its name is
absent from its session's tracked window list) and whose `linked_crates`
contains a name missing from the crate map, the run fails with an error
naming both the missing crate and the window; the failure is surfaced right
after that window's single creation command — before any startup command
(`send-keys`) is issued for it and before any later window of the run is
processed (the trace of the whole remaining window loop is exactly that one
creation command). -/
theorem missing_crate_fails_before_send_keys :
    ∀ (session_name : String) (w : Window) (idx : Nat) (crates : CrateMap)
      (st : TmuxState) (options : TmuxOptions) (rest : List Window),
      (∃ c ∈ w.linked_crates.getD [], alistLookup crates c = none) →
      w.name ∉ windowsOf st session_name →
      ∃ c cmd, c ∈ w.linked_crates.getD [] ∧ alistLookup crates c = none ∧
        cmd.isCreation = true ∧
        ensure_windows session_name crates options (w :: rest) idx st =
          ([cmd], .error (.missingCrate c w.name)) := by
  intro session_name w idx crates st options rest hmiss hneed
  obtain ⟨c, cmd, hm, hn, hcr, heq⟩ :=
    ensure_window_missing_crate session_name w idx crates st options hmiss hneed
  exact ⟨c, cmd, hm, hn, hcr, by simp only [ensure_windows, heq]⟩

/-- C3 witness: the amended statement instantiated at the `win`/`missing`
window of the counterexample, reconciled first in a run with one further
window pending. -/
theorem missing_crate_fails_before_send_keys_witness :
    ∃ c cmd,
      c ∈ (({ name := "win", linked_crates := some ["missing"] } : Window)
        |>.linked_crates.getD []) ∧
      alistLookup ([] : CrateMap) c = none ∧
      cmd.isCreation = true ∧
      ensure_windows "foo" [] optsPlain
          [{ name := "win", linked_crates := some ["missing"] }, mkWin "later"] 0
          [("foo", [])] =
        ([cmd], .error (.missingCrate c "win")) :=
  missing_crate_fails_before_send_keys "foo"
    { name := "win", linked_crates := some ["missing"] } 0 [] [("foo", [])] optsPlain
    [mkWin "later"] ⟨"missing", by decide, rfl⟩ (by decide)

/-- C2: idempotence.  If a run of `startup_tmux` completes successfully with
final tracked state `st'` (which, by the C6 tracking theorem, is also the
actual multiplexer state after a non-dry run), then running it again with
the unchanged configuration from that state issues zero mutating commands —
the trace, which contains every `new-session`, `new-window` and `send-keys`
handed to `run_command`, is empty, so an existing window's startup commands
are never re-executed — and only the attach decision (returned unchanged) may
still act. -/
theorem startup_tmux_idempotent :
    ∀ (crates : CrateMap) (config : Config) (options : TmuxOptions)
      (initial_state : TmuxState) (tmux_env : Option String) (tr : List TmuxCmd)
      (st' : TmuxState) (att : AttachResult),
      startup_tmux crates config options initial_state tmux_env = (tr, .ok (st', att)) →
      startup_tmux crates config options st' tmux_env = ([], .ok (st', att)) := by
  intro crates config options st tmux_env tr st' att h
  unfold startup_tmux at h ⊢
  cases ht : config.tmux with
  | none =>
      rw [ht] at h
      dsimp only at h ⊢
      simp only [Prod.mk.injEq, Except.ok.injEq] at h
      obtain ⟨-, rfl, rfl⟩ := h
      rfl
  | some tmux =>
      rw [ht] at h
      dsimp only at h ⊢
      rcases hs : ensure_sessions crates options tmux.sessions st with ⟨tr₁, r₁⟩
      rw [hs] at h
      cases r₁ with
      | error e => simp at h
      | ok st₁ =>
          dsimp only at h
          simp only [Prod.mk.injEq, Except.ok.injEq] at h
          obtain ⟨-, rfl, rfl⟩ := h
          have hall := ensure_sessions_all_present crates options tmux.sessions st tr₁ st₁ hs
          rw [ensure_sessions_skip_all crates options tmux.sessions st₁ hall]

/-- C2 witness: a fresh run creating session `s` with window `w`, replayed
from its final state, issues nothing. -/
theorem startup_tmux_idempotent_witness :
    startup_tmux [] cfgSingle optsPlain [("s", ["w"])] none =
      ([], .ok ([("s", ["w"])], .noAttach)) :=
  startup_tmux_idempotent [] cfgSingle optsPlain [] none
    [TmuxCmd.newSession "default" "s" "w" none []] [("s", ["w"])] .noAttach rfl

/-- C5: `gather_tmux_state` of a server that is not running — the list
command runs but prints nothing on stdout, modelled as `some (some "")` —
yields the empty mapping (everything must be created), after issuing only
the `list-sessions` query; whereas a list command that cannot be executed
(`Command::output()` returning `Err`, the "connection error" to the
subprocess) or that produces non-UTF-8 (unparseable) output is fatal for the
run — both for `list-sessions` and for any per-session `list-windows` — and
is never treated as empty state. -/
theorem gather_state_empty_server_and_failures :
    ∀ (responses : TmuxResponses) (options : TmuxOptions),
      (responses.sessions_output = some (some "") →
        gather_tmux_state responses options =
          ([TmuxCmd.listSessions (get_socket_name options)], .ok [])) ∧
      (responses.sessions_output = none →
        (gather_tmux_state responses options).2 = .error .execFailure) ∧
      (responses.sessions_output = some none →
        (gather_tmux_state responses options).2 = .error .invalidUtf8) ∧
      (∀ out, responses.sessions_output = some (some out) →
        (∃ s ∈ rustLines out, responses.windows_output s = none ∨
          responses.windows_output s = some none) →
        ∃ e, (gather_tmux_state responses options).2 = .error e) := by
  intro responses options
  refine ⟨?_, ?_, ?_, ?_⟩
  · intro h
    unfold gather_tmux_state
    rw [h]
    rfl
  · intro h
    unfold gather_tmux_state
    rw [h]
  · intro h
    unfold gather_tmux_state
    rw [h]
  · intro out hout hfail
    obtain ⟨e, he⟩ := gather_windows_err (get_socket_name options) responses
      (rustLines out) [] hfail
    refine ⟨e, ?_⟩
    unfold gather_tmux_state
    rw [hout]
    dsimp only
    rcases hg : gather_windows (get_socket_name options) responses (rustLines out) []
      with ⟨tr, r⟩
    rw [hg] at he
    simpa using he

/-- C5 witness: the empty-server case at the trivial responses, and a fatal
`list-windows` execution failure. -/
theorem gather_state_empty_server_witness :
    gather_tmux_state respEmpty optsPlain =
      ([TmuxCmd.listSessions (get_socket_name optsPlain)], .ok []) ∧
    ∃ e, (gather_tmux_state
      { sessions_output := some (some "foo\n"), windows_output := fun _ => none }
      optsPlain).2 = .error e :=
  ⟨(gather_state_empty_server_and_failures respEmpty optsPlain).1 rfl,
   (gather_state_empty_server_and_failures
      { sessions_output := some (some "foo\n"), windows_output := fun _ => none }
      optsPlain).2.2.2 "foo\n" rfl ⟨"foo", by decide, Or.inl rfl⟩⟩

/-- C6: after any mutation the engine performs in a (non-dry) run, the
multiplexer's state — modelled from the spec's external-interface contract
by `applyTmuxCmd`, since tmux itself is outside this repository — equals the
engine's locally tracked state at every point where
`compare_presumed_vs_actual_state` is invoked (entry and exit of each
`ensure_window` step, and hence across whole successful runs); and the
comparison itself is a hard failure (panic) exactly in testing mode: with
`is_testing` set a mismatch yields `.panicked`, while with `is_testing`
unset no input can produce `.panicked` — a mismatch is logged only. -/
theorem state_tracking_and_mismatch_handling :
    (∀ (session_name : String) (w : Window) (idx : Nat) (crates : CrateMap)
        (st : TmuxState) (options : TmuxOptions) (tr : List TmuxCmd) (st' : TmuxState),
      options.is_dry_run = false →
      ensure_window session_name w idx crates st options = (tr, .ok st') →
      applyTmuxTrace st tr = some st') ∧
    (∀ (crates : CrateMap) (options : TmuxOptions) (sessions : List Session)
        (st : TmuxState) (tr : List TmuxCmd) (st' : TmuxState),
      options.is_dry_run = false →
      ensure_sessions crates options sessions st = (tr, .ok st') →
      applyTmuxTrace st tr = some st') ∧
    (∀ (cur act : TmuxState) (options : TmuxOptions) (trace_enabled : Bool),
      options.is_testing = true → cur ≠ act →
      compare_presumed_vs_actual_state cur act options trace_enabled = .panicked) ∧
    (∀ (cur act : TmuxState) (options : TmuxOptions) (trace_enabled : Bool),
      options.is_testing = false →
      compare_presumed_vs_actual_state cur act options trace_enabled ≠ .panicked) := by
  refine ⟨?_, ?_, ?_, ?_⟩
  · intro session_name w idx crates st options tr st' _ h
    exact ensure_window_tracks session_name w idx crates st options tr st' h
  · intro crates options sessions st tr st' _ h
    exact ensure_sessions_tracks crates options sessions st tr st' h
  · intro cur act options trace_enabled htest hne
    unfold compare_presumed_vs_actual_state
    rw [htest]
    simp [hne]
  · intro cur act options trace_enabled htest
    unfold compare_presumed_vs_actual_state
    rw [htest]
    by_cases hte : trace_enabled
    · by_cases heq : cur = act <;> simp [hte, heq]
    · simp [hte]

/-- C6 witness: the tracking statement at a concrete session creation, a
testing-mode mismatch panicking, and a production-mode mismatch not
panicking. -/
theorem state_tracking_and_mismatch_handling_witness :
    applyTmuxTrace [] [TmuxCmd.newSession "default" "s" "w" none []] =
      some [("s", ["w"])] ∧
    compare_presumed_vs_actual_state [("s", ["w"])] [] optsTesting false = .panicked ∧
    compare_presumed_vs_actual_state [("s", ["w"])] [] optsPlain true ≠ .panicked :=
  ⟨state_tracking_and_mismatch_handling.1 "s" (mkWin "w") 0 [] [] optsPlain
      [TmuxCmd.newSession "default" "s" "w" none []] [("s", ["w"])] rfl rfl,
   state_tracking_and_mismatch_handling.2.2.1 [("s", ["w"])] [] optsTesting false
      rfl (by decide),
   state_tracking_and_mismatch_handling.2.2.2 [("s", ["w"])] [] optsPlain true rfl⟩

/-- C7: under successful crate resolution, the Window Command Planner's
output is exactly one `export PATH` prepend per `linked_crates` entry, in
declared order, followed by the window's own command(s) (`ownCommands`:
one entry for a single string, each element in order for a list); it returns
no commands (`none`) exactly when those two sources contribute no command
strings, and in that case `execute_command` issues no `send-keys` at all. -/
theorem window_command_planner_order :
    ∀ (w : Window) (crates : CrateMap) (session_name : String) (options : TmuxOptions),
      cratesOk crates w →
      ∃ r, determine_commands_for_window w crates = .ok r ∧
        (r = none ↔ (w.linked_crates.getD []).map
            (fun c => exportPathCmd ((alistLookup crates c).getD "")) ++ ownCommands w = []) ∧
        (∀ cs, r = some cs →
          cs = (w.linked_crates.getD []).map
            (fun c => exportPathCmd ((alistLookup crates c).getD "")) ++ ownCommands w) ∧
        (r = none → execute_command session_name w crates options = ([], .ok ())) := by
  intro w crates session_name options h
  have hd := determine_commands_eq w crates h
  by_cases he : ((w.linked_crates.getD []).map
      (fun c => exportPathCmd ((alistLookup crates c).getD "")) ++ ownCommands w).isEmpty
  · have hnil := List.isEmpty_iff.mp he
    refine ⟨none, ?_, ?_, ?_, ?_⟩
    · rw [hd, if_pos he]
    · simp [hnil]
    · intro cs hcs; cases hcs
    · intro _
      unfold execute_command
      rw [hd, if_pos he]
  · have hne : ¬((w.linked_crates.getD []).map
        (fun c => exportPathCmd ((alistLookup crates c).getD "")) ++ ownCommands w = []) := by
      intro hc
      rw [hc] at he
      simp at he
    refine ⟨some ((w.linked_crates.getD []).map
        (fun c => exportPathCmd ((alistLookup crates c).getD "")) ++ ownCommands w),
      ?_, ?_, ?_, ?_⟩
    · rw [hd, if_neg he]
    · simp [hne]
    · intro cs hcs
      injection hcs with hcs
      exact hcs.symm
    · intro hcs; cases hcs

/-- C7 witness: a window linking crate `c1` (resolved to `/p`) with a single
own command. -/
theorem window_command_planner_order_witness :
    ∃ r, determine_commands_for_window winLinked cratesOne = .ok r ∧
      (r = none ↔ (winLinked.linked_crates.getD []).map
          (fun c => exportPathCmd ((alistLookup cratesOne c).getD "")) ++
        ownCommands winLinked = []) ∧
      (∀ cs, r = some cs →
        cs = (winLinked.linked_crates.getD []).map
          (fun c => exportPathCmd ((alistLookup cratesOne c).getD "")) ++
        ownCommands winLinked) ∧
      (r = none → execute_command "s" winLinked cratesOne optsPlain = ([], .ok ())) :=
  window_command_planner_order winLinked cratesOne "s" optsPlain
    (by intro c hc; simp [winLinked] at hc; subst hc; rfl)

/-- C8: the Attach Controller never attaches under an explicit `some false`,
always proceeds to attach under `some true`, and under `none` stays out
exactly when already inside a multiplexer session (`TMUX` set); under
dry-run or testing it never replaces the process (no `.execReplace`) and
instead returns the would-be command; whenever it attaches, the command is
`attach` targeted with `-t <default_session>` exactly when the configuration
declares a default session. -/
theorem attach_controller_decision :
    ∀ (tmux_env : Option String) (config : Config) (options : TmuxOptions),
      (options.should_attach = some false →
        maybe_attach_tmux tmux_env config options = .noAttach) ∧
      (options.should_attach = some true →
        maybe_attach_tmux tmux_env config options ≠ .noAttach) ∧
      (options.should_attach = none →
        (maybe_attach_tmux tmux_env config options = .noAttach ↔
          in_tmux tmux_env = true)) ∧
      ((options.is_dry_run = true ∨ options.is_testing = true) →
        ∀ cmd, maybe_attach_tmux tmux_env config options ≠ .execReplace cmd) ∧
      (∀ cmd, maybe_attach_tmux tmux_env config options = .wouldRun cmd ∨
              maybe_attach_tmux tmux_env config options = .execReplace cmd →
        cmd = TmuxCmd.attach (config.tmux.bind (fun t => t.default_session)) ∧
        cmd.args = "attach" :: (match config.tmux.bind (fun t => t.default_session) with
          | some session => ["-t", session]
          | none => [])) := by
  intro tmux_env config options
  refine ⟨?_, ?_, ?_, ?_, ?_⟩
  · intro h
    simp [maybe_attach_tmux, h]
  · intro h
    simp only [maybe_attach_tmux, h, Option.getD_some, Bool.not_true, Bool.false_eq_true,
      if_false]
    split <;> simp
  · intro h
    by_cases hin : in_tmux tmux_env = true
    · simp [maybe_attach_tmux, h, hin]
    · have hin' : in_tmux tmux_env = false := by simpa using hin
      simp only [maybe_attach_tmux, h, Option.getD_none, hin', Bool.not_false,
        Bool.not_true, Bool.false_eq_true, if_false]
      constructor
      · intro hcontra
        revert hcontra
        split <;> simp
      · intro hcontra
        simp at hcontra
  · rintro (hd | hd) cmd <;>
      simp only [maybe_attach_tmux, hd, Bool.not_true, Bool.false_and, Bool.and_false,
        Bool.false_eq_true, if_false] <;>
      split <;> simp
  · intro cmd hcmd
    have hc : cmd = TmuxCmd.attach (config.tmux.bind (fun t => t.default_session)) := by
      rcases maybe_attach_cases tmux_env config options with h0 | h0 | h0 <;>
        rcases hcmd with hh | hh <;> rw [hh] at h0 <;>
        injection h0
    subst hc
    refine ⟨rfl, ?_⟩
    cases hb : config.tmux.bind (fun t => t.default_session) with
    | none => simp [TmuxCmd.args]
    | some session => simp [TmuxCmd.args]

/-- C8 witness: an explicit `some false` preference yields no attach, and a
dry-run `some true` run returns the would-be plain `attach` command. -/
theorem attach_controller_decision_witness :
    maybe_attach_tmux none cfgSingle optsPlain = .noAttach ∧
    (TmuxCmd.attach none = TmuxCmd.attach (cfgSingle.tmux.bind (fun t => t.default_session)) ∧
     (TmuxCmd.attach none).args =
       "attach" :: (match cfgSingle.tmux.bind (fun t => t.default_session) with
         | some session => ["-t", session]
         | none => [])) :=
  ⟨(attach_controller_decision none cfgSingle optsPlain).1 rfl,
   (attach_controller_decision none cfgSingle optsAttachDry).2.2.2.2 (TmuxCmd.attach none)
     (Or.inl rfl)⟩

/-- C4: fresh-session creation.  For a configuration declaring one session
with three windows (distinct names, resolvable crates) reconciled against a
state with no such session, the run succeeds and its creation commands are
exactly one `new-session` (named after the session and its first window,
carrying that window's path and env) followed by exactly two `new-window`
commands for the second and third windows at indices 2 and 3; the session is
recorded in local state first with the single-element window list (visible
as the `alistInsert` of `[w1.name]` threaded through the proof) and ends
with all three window names in configuration order. -/
theorem fresh_session_creation_commands :
    ∀ (s : String) (w1 w2 w3 : Window) (crates : CrateMap) (st : TmuxState)
      (options : TmuxOptions),
      alistLookup st s = none →
      w2.name ≠ w1.name → w3.name ≠ w1.name → w3.name ≠ w2.name →
      cratesOk crates w1 → cratesOk crates w2 → cratesOk crates w3 →
      ∃ tr st',
        ensure_sessions crates options [⟨s, [w1, w2, w3]⟩] st = (tr, .ok st') ∧
        tr.filter (fun c => c.isCreation) =
          [TmuxCmd.newSession (get_socket_name options) s w1.name w1.path (w1.env.getD []),
           TmuxCmd.newWindow (get_socket_name options) s 2 w2.name w2.path (w2.env.getD []),
           TmuxCmd.newWindow (get_socket_name options) s 3 w3.name w3.path (w3.env.getD [])] ∧
        alistLookup st' s = some [w1.name, w2.name, w3.name] := by
  intro s w1 w2 w3 crates st options hl h21 h31 h32 hc1 hc2 hc3
  obtain ⟨sends1, hsk1, e1⟩ := ensure_window_creates_session s w1 0 crates st options hl hc1
  have hl₁ : alistLookup (alistInsert st s [w1.name]) s = some [w1.name] :=
    alistLookup_insert_self st s [w1.name]
  have hnm2 : w2.name ∉ [w1.name] := by simp [h21]
  obtain ⟨sends2, ws2, hins2, hsk2, e2⟩ :=
    ensure_window_creates_window s w2 1 crates (alistInsert st s [w1.name]) options
      [w1.name] hl₁ hnm2 (by simp) hc2
  have hws2 : ws2 = [w1.name, w2.name] := by
    have h' := hins2
    rw [show vecInsert [w1.name] 1 w2.name = some [w1.name, w2.name] from rfl] at h'
    exact (Option.some.inj h').symm
  subst hws2
  have hl₂ : alistLookup (alistUpdate (alistInsert st s [w1.name]) s
      [w1.name, w2.name]) s = some [w1.name, w2.name] :=
    alistLookup_update_self (alistInsert st s [w1.name]) s [w1.name] _ hl₁
  have hnm3 : w3.name ∉ [w1.name, w2.name] := by simp [h31, h32]
  obtain ⟨sends3, ws3, hins3, hsk3, e3⟩ :=
    ensure_window_creates_window s w3 2 crates
      (alistUpdate (alistInsert st s [w1.name]) s [w1.name, w2.name]) options
      [w1.name, w2.name] hl₂ hnm3 (by simp) hc3
  have hws3 : ws3 = [w1.name, w2.name, w3.name] := by
    have h' := hins3
    rw [show vecInsert [w1.name, w2.name] 2 w3.name =
      some [w1.name, w2.name, w3.name] from rfl] at h'
    exact (Option.some.inj h').symm
  subst hws3
  have W4 : ensure_windows s crates options [] 3
      (alistUpdate (alistUpdate (alistInsert st s [w1.name]) s [w1.name, w2.name]) s
        [w1.name, w2.name, w3.name]) =
      ([], .ok (alistUpdate (alistUpdate (alistInsert st s [w1.name]) s
        [w1.name, w2.name]) s [w1.name, w2.name, w3.name])) := rfl
  have W3 := ensure_windows_cons_ok s crates options w3 [] 2 _ _ _ _ _ e3 W4
  have W2 := ensure_windows_cons_ok s crates options w2 [w3] 1 _ _ _ _ _ e2 W3
  have W1 := ensure_windows_cons_ok s crates options w1 [w2, w3] 0 _ _ _ _ _ e1 W2
  have S1 := ensure_sessions_cons_ok crates options ⟨s, [w1, w2, w3]⟩ [] _ _ _ _ _ W1 rfl
  refine ⟨_, _, S1, ?_, ?_⟩
  · have f1 := filter_isCreation_sendKeys sends1 _ _ _ hsk1
    have f2 := filter_isCreation_sendKeys sends2 _ _ _ hsk2
    have f3 := filter_isCreation_sendKeys sends3 _ _ _ hsk3
    simp only [List.cons_append, List.nil_append, List.append_nil, List.filter_append,
      List.filter_cons, f1, f2, f3]
    simp [TmuxCmd.isCreation]
  · exact alistLookup_update_self _ s [w1.name, w2.name] _ hl₂

/-- C4 witness: session `foo` with plain windows `bar`, `baz`, `qux` against
the empty state. -/
theorem fresh_session_creation_commands_witness :
    ∃ tr st',
      ensure_sessions [] optsPlain [⟨"foo", [mkWin "bar", mkWin "baz", mkWin "qux"]⟩] []
        = (tr, .ok st') ∧
      tr.filter (fun c => c.isCreation) =
        [TmuxCmd.newSession (get_socket_name optsPlain) "foo" (mkWin "bar").name
            (mkWin "bar").path ((mkWin "bar").env.getD []),
         TmuxCmd.newWindow (get_socket_name optsPlain) "foo" 2 (mkWin "baz").name
            (mkWin "baz").path ((mkWin "baz").env.getD []),
         TmuxCmd.newWindow (get_socket_name optsPlain) "foo" 3 (mkWin "qux").name
            (mkWin "qux").path ((mkWin "qux").env.getD [])] ∧
      alistLookup st' "foo" =
        some [(mkWin "bar").name, (mkWin "baz").name, (mkWin "qux").name] :=
  fresh_session_creation_commands "foo" (mkWin "bar") (mkWin "baz") (mkWin "qux") [] []
    optsPlain rfl (by decide) (by decide) (by decide)
    (by intro c hc; simp [mkWin] at hc)
    (by intro c hc; simp [mkWin] at hc)
    (by intro c hc; simp [mkWin] at hc)

/-- C10: the attach command carries no socket flag — it is built as
`TmuxCmd.attach` with only the optional `-t <session>` target, so its
argument list starts with `attach` (and therefore targets the default
socket) — while, for any options value (in particular any socket-name
override), every `new-session`, `new-window` and `send-keys` command of a
run and every `list-sessions`/`list-windows` command of a state query begins
with `-L <socket name>`. -/
theorem attach_omits_socket_flag :
    ∀ (options : TmuxOptions) (config : Config) (crates : CrateMap) (st : TmuxState)
      (tmux_env : Option String) (responses : TmuxResponses),
      (∀ cmd, maybe_attach_tmux tmux_env config options = .wouldRun cmd ∨
              maybe_attach_tmux tmux_env config options = .execReplace cmd →
        cmd = TmuxCmd.attach (config.tmux.bind (fun t => t.default_session)) ∧
        cmd.args.take 1 = ["attach"]) ∧
      (∀ cmd ∈ (startup_tmux crates config options st tmux_env).1,
        cmd.args.take 2 = ["-L", get_socket_name options]) ∧
      (∀ cmd ∈ (gather_tmux_state responses options).1,
        cmd.args.take 2 = ["-L", get_socket_name options]) := by
  intro options config crates st tmux_env responses
  refine ⟨?_, ?_, ?_⟩
  · intro cmd hcmd
    have hc : cmd = TmuxCmd.attach (config.tmux.bind (fun t => t.default_session)) := by
      rcases maybe_attach_cases tmux_env config options with h0 | h0 | h0 <;>
        rcases hcmd with hh | hh <;> rw [hh] at h0 <;>
        injection h0
    subst hc
    refine ⟨rfl, ?_⟩
    cases hb : config.tmux.bind (fun t => t.default_session) with
    | none => simp [TmuxCmd.args]
    | some session => simp [TmuxCmd.args]
  · exact startup_tmux_socket crates config options st tmux_env
  · exact gather_tmux_state_socket responses options

/-- C10 witness: a would-be attach from a dry run that was told to attach,
plus the socket prefix of a concrete created session's command. -/
theorem attach_omits_socket_flag_witness :
    (TmuxCmd.attach none = TmuxCmd.attach (cfgSingle.tmux.bind (fun t => t.default_session)) ∧
     (TmuxCmd.attach none).args.take 1 = ["attach"]) ∧
    (TmuxCmd.newSession "default" "s" "w" none []).args.take 2 =
      ["-L", get_socket_name optsPlain] :=
  ⟨(attach_omits_socket_flag optsAttachDry cfgSingle [] [] none respEmpty).1
      (TmuxCmd.attach none) (Or.inl rfl),
   (attach_omits_socket_flag optsPlain cfgSingle [] [] none respEmpty).2.1
      (TmuxCmd.newSession "default" "s" "w" none []) (by decide)⟩

end Binutils
